import Mathlib

/-!
A shallow embedding of the core logic of `src/SplitLah.py`: the account
store (bcrypt-hashed credentials persisted to a JSON record file) and the
split engine (even, percentage, fixed-amount and budget-tracking splits),
plus the live exchange-rate fetcher.

Modelling conventions: Python floats are modelled as exact rationals,
Python dicts as association lists in insertion order, the record file as
an `Option (List User)` (`none` meaning the file is absent), and raising
an exception as `Except String`.  The external bcrypt library is not part
of the repository, so the store operations are parameterised over the two
bcrypt primitives they call.
-/

namespace SplitLah

/-- The Python builtin `abs` on numbers. -/
def pyabs (q : ℚ) : ℚ := if q < 0 then -q else q

/-- The Python `str.lower` method, character by character. -/
def py_lower (s : String) : String := String.mk (s.data.map Char.toLower)

/-- The Python `str.startswith` method. -/
def py_startswith (pre s : String) : Bool := List.isPrefixOf pre.data s.data

/-- One record of the `users.json` store: `username`, bcrypt `password`,
saved `groups` (name to member list), `plan_type` and `plan_duration`. -/
structure User where
  username : String
  password : String
  groups : List (String × List String)
  plan_type : String
  plan_duration : String
deriving DecidableEq

/-- Format check `is_bcrypt_hash` (SplitLah.py line 25): the string starts
with the bcrypt marker and is longer than 50 characters. -/
def is_bcrypt_hash (s : String) : Bool :=
  py_startswith ("$2b$") s && decide (s.length > 50)

/-- Store writer `save_users` (line 38): scan the records in order and
raise on the first record whose password is not a well-formed bcrypt hash;
the raise happens before the file is opened.  Otherwise the full list is
written. -/
def save_users (users : List User) : Except String (List User) :=
  match users.find? (fun u => ! is_bcrypt_hash u.password) with
  | some u => .error ("Refusing to save raw password for user " ++ u.username)
  | none => .ok users

/-- Whether an `Except` models a raised Python exception. -/
def raises (e : Except String (List User)) : Bool :=
  match e with
  | .error _ => true
  | .ok _ => false

/-- The record-file effect of `save_users`: on success the file holds
exactly the list that was passed, on a raise the previous file content is
untouched (the raise happens before `open`). -/
def run_save (fs : Option (List User)) (users : List User) : Option (List User) :=
  match save_users users with
  | .ok us => some us
  | .error _ => fs

/-- Duplicate check `user_exists` (line 73): case-insensitive comparison
against every stored username. -/
def user_exists (users : List User) (username : String) : Bool :=
  users.any (fun u => py_lower u.username == py_lower username)

/-- The record appended by `create_user` (lines 83-91): fresh hash, empty
groups, the given plan fields. -/
def new_user (hashed_pw username plan_type plan_duration : String) : User :=
  { username := username, password := hashed_pw, groups := [],
    plan_type := plan_type, plan_duration := plan_duration }

/-- Account creation `create_user` (line 78), parameterised by the bcrypt
`hash_password` primitive.  Returns `false` without saving when the
username is taken, otherwise appends the new record and saves. -/
def create_user (hash_password : String → String) (users : List User)
    (username password plan_type plan_duration : String) :
    Except String (Bool × List User) :=
  if user_exists users username then .ok (false, users)
  else
    (save_users (users ++ [new_user (hash_password password) username plan_type plan_duration])).map
      (fun saved => (true, saved))

/-- Login check `verify_user` (line 96), parameterised by the bcrypt
`verify_password` primitive: the first record matching the username
case-insensitively whose stored hash verifies against the given password
yields its stored (canonically cased) username; otherwise `none`
(authentication failure). -/
def verify_user (verify_password : String → String → Bool) (users : List User)
    (username password : String) : Option String :=
  match users.find? (fun u =>
      py_lower u.username == py_lower username && verify_password password u.password) with
  | some u => some u.username
  | none => none

/-- Group update `update_user_groups` (line 56): replace `groups` on every
case-insensitive username match, then save the whole list. -/
def update_user_groups (users : List User) (username : String)
    (groups : List (String × List String)) : Except String (List User) :=
  save_users (users.map (fun u =>
    if py_lower u.username == py_lower username then { u with groups := groups } else u))

/-- Plan update `update_user_plan` (line 64): replace the plan fields on
every case-insensitive username match, then save the whole list. -/
def update_user_plan (users : List User) (username plan_type plan_duration : String) :
    Except String (List User) :=
  save_users (users.map (fun u =>
    if py_lower u.username == py_lower username then
      { u with plan_type := plan_type, plan_duration := plan_duration }
    else u))

/-- The sum of the per-member numbers entered on a split page
(`total_entered` and `total_percent` in the source). -/
def total_entered (entries : List (String × ℚ)) : ℚ := (entries.map Prod.snd).sum

/-- Percentage split `split_by_percentage` (line 267): reject when the
percentages are more than 0.01 away from 100, otherwise each member pays
`(pct / 100) * total`. -/
def split_by_percentage (total : ℚ) (entries : List (String × ℚ)) :
    Option (List (String × ℚ)) :=
  if pyabs (total_entered entries - 100) > 1/100 then none
  else some (entries.map (fun e => (e.1, e.2 / 100 * total)))

/-- The four observable outcomes of the fixed-amount split. -/
inductive MoneySplit
  | incomplete
  | success (shares : List (String × ℚ))
  | exceeds (entered total : ℚ)
  | insufficient (entered total : ℚ)
deriving DecidableEq

/-- Fixed-amount split `split_by_money` (line 280), with the checks in
source order: zero entered first, then the strict 0.01 tolerance, then
the over-the-bill comparison, otherwise below the bill. -/
def split_by_money (total : ℚ) (entries : List (String × ℚ)) : MoneySplit :=
  if total_entered entries = 0 then .incomplete
  else if pyabs (total_entered entries - total) < 1/100 then .success entries
  else if total_entered entries > total then .exceeds (total_entered entries) total
  else .insufficient (total_entered entries) total

/-- The `Evenly` branch of Normal Split (lines 471-474): every member pays
`total / len(members)`. -/
def split_evenly (total : ℚ) (members : List String) : List (String × ℚ) :=
  members.map (fun name => (name, total / members.length))

/-- Outcome of the HTTP call inside `get_live_rates`: `exn` for any raised
exception (connection error, timeout, bad status, JSON decode failure);
`ok rates` for a parsed JSON body, whose optional field holds the
code-to-rate mapping exactly when the body has a `rates` key. -/
inductive FetchOutcome
  | exn
  | ok (rates : Option (List (String × ℚ)))

/-- The hardcoded fallback table of `get_live_rates` (line 310). -/
def fallback_rates : List (String × ℚ) :=
  [("USD", 1), ("EUR", 91/100), ("JPY", 297/2), ("MYR", 23/5),
   ("INR", 167/2), ("SGD", 27/20)]

/-- Rate fetcher `get_live_rates` (line 300): a raised exception is caught
and gives the fallback table; a parsed body gives its `rates` field when
present, and otherwise the function falls off its end, returning the
Python `None`. -/
def get_live_rates (o : FetchOutcome) : Option (List (String × ℚ)) :=
  match o with
  | .exn => some fallback_rates
  | .ok (some r) => some r
  | .ok none => none

/-- The per-split inputs of the budget page: evenly, or the per-member
percentages or contributions entered. -/
inductive SplitChoice
  | evenly
  | byPercentage (pcts : List ℚ)
  | byMoney (amts : List ℚ)

/-- Whether the budget-page split step shows results, per the redefined
`split_by_percentage` and `split_by_money` with `calculate=True` (lines
492-545): percentages within 0.01 of 100, contributions within 0.01 of
the spend amount; the `Evenly` branch always succeeds. -/
def budget_split_ok (spend : ℚ) (c : SplitChoice) : Bool :=
  match c with
  | .evenly => true
  | .byPercentage pcts => if pyabs (pcts.sum - 100) > 1/100 then false else true
  | .byMoney amts => if pyabs (amts.sum - spend) > 1/100 then false else true

/-- The budget session state: `budget_set`, `budget_remaining`,
`loop_active`, plus the `run_id` and the keyed per-member number-input
values the page keeps in `st.session_state`, each tagged with the run
identifier it was entered under. -/
structure BudgetState where
  budget_set : ℚ
  budget_remaining : ℚ
  loop_active : Bool
  run_id : Nat
  inputs : List (Nat × String × ℚ)
deriving DecidableEq

/-- The state classification reported after a spend (lines 589-597). -/
inductive SpendOutcome
  | continuing
  | complete
  | overspent
deriving DecidableEq

/-- The `Split This Amount` handler (lines 572-597).  The split results
are shown only when `spend > 0` and the chosen split validates, but the
`budget_remaining -= spend` statement runs unconditionally (it sits at
the same indentation level as the amount check), and the new remaining
amount is then classified by sign, with `loop_active` kept true only when
it is positive.  Returns the new state, whether split results were shown,
and the classification. -/
def spend_step (s : BudgetState) (spend : ℚ) (c : SplitChoice) :
    BudgetState × Bool × SpendOutcome :=
  let shown := if spend ≤ 0 then false else budget_split_ok spend c
  let r := s.budget_remaining - spend
  ({ s with budget_remaining := r, loop_active := if 0 < r then true else false },
   shown,
   if 0 < r then .continuing else if r = 0 then .complete else .overspent)

/-- The `Reset Budget` handler (lines 615-620): zero both budget fields,
deactivate the loop, and replace `run_id` by a fresh identifier, which
invalidates every keyed per-member input. -/
def reset_budget (s : BudgetState) (fresh : Nat) : BudgetState :=
  { s with budget_remaining := 0, budget_set := 0, loop_active := false, run_id := fresh }

/-- The per-member inputs the page can still see: those keyed with the
current `run_id`. -/
def pending_inputs (s : BudgetState) : List (Nat × String × ℚ) :=
  s.inputs.filter (fun e => e.1 == s.run_id)

/-- A concrete executable stand-in for the external `bcrypt.hashpw`
primitive (the bcrypt library is not part of this repository), used only
to instantiate the hash-parameterised theorems: its output is well formed
per `is_bcrypt_hash` and is verified by `demo_checkpw`. -/
def demo_hashpw (password : String) : String :=
  "$2b$12$" ++ password ++ String.mk (List.replicate 50 'x')

/-- Stand-in for the external `bcrypt.checkpw`, matching `demo_hashpw`. -/
def demo_checkpw (password hashed : String) : Bool := hashed == demo_hashpw password

/-- A record whose password field is raw plaintext, as it would appear if
a caller bypassed hashing. -/
def eve_plain : User :=
  { username := "eve", password := "plain", groups := [],
    plan_type := "Basic", plan_duration := "Monthly" }

/-- A well-formed stored record. -/
def al_user : User := new_user (demo_hashpw ("pw")) ("Al") ("Basic") ("Monthly")

/-- A budget session of 100 with nothing pending. -/
def demo_budget : BudgetState :=
  { budget_set := 100, budget_remaining := 100, loop_active := false,
    run_id := 0, inputs := [] }

/-- A budget session holding one keyed per-member input under run
identifier 0. -/
def demo_inputs_state : BudgetState :=
  { budget_set := 100, budget_remaining := 100, loop_active := true,
    run_id := 0, inputs := [(0, ("k"), 5)] }

/-- Helper: saving a list in which every password is a well-formed hash
succeeds with the full list. -/
theorem save_users_eq_ok (users : List User)
    (h : ∀ u ∈ users, is_bcrypt_hash u.password = true) :
    save_users users = .ok users := by
  unfold save_users
  rw [List.find?_eq_none.mpr (fun x hx => by simp [h x hx])]

/-- Helper: from a failed duplicate check, no stored username matches. -/
theorem user_exists_eq_false_forall {users : List User} {username : String}
    (h : user_exists users username = false) :
    ∀ r ∈ users, (py_lower r.username == py_lower username) = false := by
  intro r hr
  have hall := List.any_eq_false.mp h r hr
  simpa using hall

/-- Helper: mapping a function that fixes every element of a list is the
identity on that list. -/
theorem list_map_fix (l : List User) (f : User → User) (h : ∀ a ∈ l, f a = a) :
    l.map f = l := by
  induction l with
  | nil => rfl
  | cons a t ih =>
      simp only [List.map_cons, h a (by simp)]
      rw [ih (fun b hb => h b (by simp [hb]))]

/-- C1: any write of the store first checks every record password is a
well-formed hash; a store containing a non-hash password makes the write
raise with the record file untouched (the raise precedes the file open),
and a store of well-formed hashes is persisted in full. -/
theorem save_users_validates_before_write (users : List User) (fs : Option (List User)) :
    ((∃ u ∈ users, is_bcrypt_hash u.password = false) →
      raises (save_users users) = true ∧ run_save fs users = fs) ∧
    ((∀ u ∈ users, is_bcrypt_hash u.password = true) →
      save_users users = .ok users ∧ run_save fs users = some users) := by
  constructor
  · rintro ⟨u, hu, hbad⟩
    rcases hf : users.find? (fun u => ! is_bcrypt_hash u.password) with _ | v
    · exact absurd hbad (by simpa using List.find?_eq_none.mp hf u hu)
    · have hsave : save_users users =
          .error ("Refusing to save raw password for user " ++ v.username) := by
        unfold save_users
        rw [hf]
      constructor
      · rw [hsave]; rfl
      · unfold run_save
        rw [hsave]
  · intro h
    have hsave := save_users_eq_ok users h
    constructor
    · exact hsave
    · unfold run_save
      rw [hsave]

/-- Witness for C1 at a store holding a plaintext record and at a store
holding a hashed record. -/
theorem save_users_validates_before_write_holds :
    (raises (save_users [eve_plain]) = true ∧ run_save none [eve_plain] = none) ∧
    (save_users [al_user] = .ok [al_user] ∧ run_save none [al_user] = some [al_user]) :=
  ⟨(save_users_validates_before_write [eve_plain] none).1
      ⟨eve_plain, by decide, by decide⟩,
   (save_users_validates_before_write [al_user] none).2 (by decide)⟩

/-- Counterexample for C10 as stated: on a store containing a record with
a plaintext password (and no case-insensitive match for the target
username), the group update does not complete without error — it raises
on the password invariant instead of rewriting the list verbatim. -/
theorem update_missing_user_cex :
    user_exists [eve_plain] ("bob") = false ∧
    raises (update_user_groups [eve_plain] ("bob") []) = true := by decide

/-- C10 (amended): on a store whose records all carry well-formed hashes,
updating groups or plan for a username with no case-insensitive match
completes without error and rewrites the full record list verbatim. -/
theorem update_missing_user_noop (users : List User) (username : String)
    (groups : List (String × List String)) (plan_type plan_duration : String)
    (h0 : ∀ r ∈ users, is_bcrypt_hash r.password = true)
    (h1 : user_exists users username = false) :
    update_user_groups users username groups = .ok users ∧
    update_user_plan users username plan_type plan_duration = .ok users := by
  have hfix : ∀ r ∈ users, (py_lower r.username == py_lower username) = false :=
    user_exists_eq_false_forall h1
  constructor
  · unfold update_user_groups
    rw [list_map_fix _ _ (fun r hr => by rw [hfix r hr]; rfl)]
    exact save_users_eq_ok users h0
  · unfold update_user_plan
    rw [list_map_fix _ _ (fun r hr => by rw [hfix r hr]; rfl)]
    exact save_users_eq_ok users h0

/-- Witness for C10 (amended) at a one-record store and an absent user. -/
theorem update_missing_user_noop_holds :
    update_user_groups [al_user] ("bob") [] = .ok [al_user] ∧
    update_user_plan [al_user] ("bob") ("Premium Solo") ("Yearly") = .ok [al_user] :=
  update_missing_user_noop [al_user] ("bob") [] ("Premium Solo") ("Yearly")
    (by decide) (by decide)

/-- Counterexample for C2 as stated: a single contribution of 1.005
against a bill of 1 has a sum strictly greater than the total, yet the
split succeeds with the contribution as entered instead of reporting
Exceeds, because the strict 0.01 tolerance check runs first; and a sum
exactly 0.01 over the total is not a success (the tolerance is strict)
but an Exceeds. -/
theorem split_by_money_claim_cex :
    (1 < total_entered [(("A" : String), 201/200)] ∧
      split_by_money 1 [(("A" : String), 201/200)] =
        MoneySplit.success [(("A" : String), 201/200)] ∧
      split_by_money 1 [(("A" : String), 201/200)] ≠ MoneySplit.exceeds (201/200) 1) ∧
    (pyabs (total_entered [(("A" : String), 101/100)] - 1) = 1/100 ∧
      split_by_money 1 [(("A" : String), 101/100)] = MoneySplit.exceeds (101/100) 1) := by
  have hs : split_by_money 1 [(("A" : String), 201/200)] =
      MoneySplit.success [(("A" : String), 201/200)] := by
    norm_num [split_by_money, total_entered, pyabs]
  refine ⟨⟨by norm_num [total_entered], hs, ?_⟩, ⟨by norm_num [total_entered, pyabs], ?_⟩⟩
  · rw [hs]
    simp
  · norm_num [split_by_money, total_entered, pyabs]

/-- C2 (amended): the fixed-amount split checks in source order — a zero
sum is Incomplete; otherwise a sum strictly within 0.01 of the total is a
success whose amounts are exactly the contributions as entered; otherwise
a sum above the total is Exceeds(entered, total); otherwise
Insufficient(entered, total). -/
theorem split_by_money_outcomes (total : ℚ) (entries : List (String × ℚ)) :
    (total_entered entries = 0 → split_by_money total entries = MoneySplit.incomplete) ∧
    (total_entered entries ≠ 0 → pyabs (total_entered entries - total) < 1/100 →
      split_by_money total entries = MoneySplit.success entries) ∧
    (total_entered entries ≠ 0 → ¬ pyabs (total_entered entries - total) < 1/100 →
      total < total_entered entries →
      split_by_money total entries = MoneySplit.exceeds (total_entered entries) total) ∧
    (total_entered entries ≠ 0 → ¬ pyabs (total_entered entries - total) < 1/100 →
      ¬ total < total_entered entries →
      split_by_money total entries = MoneySplit.insufficient (total_entered entries) total) := by
  unfold split_by_money
  refine ⟨?_, ?_, ?_, ?_⟩
  · intro h1
    rw [if_pos h1]
  · intro h1 h2
    rw [if_neg h1, if_pos h2]
  · intro h1 h2 h3
    rw [if_neg h1, if_neg h2, if_pos h3]
  · intro h1 h2 h3
    rw [if_neg h1, if_neg h2, if_neg h3]

/-- Witness for C2 (amended): contributions 30, 30, 30 against a bill of
100 report Insufficient(90, 100). -/
theorem split_by_money_outcomes_holds :
    split_by_money 100 [(("A" : String), 30), (("B" : String), 30), (("C" : String), 30)] =
      MoneySplit.insufficient 90 100 := by
  have h := (split_by_money_outcomes 100
      [(("A" : String), 30), (("B" : String), 30), (("C" : String), 30)]).2.2.2
    (by norm_num [total_entered]) (by norm_num [total_entered, pyabs])
    (by norm_num [total_entered])
  rw [h]
  norm_num [total_entered]

/-- Counterexample for C3 as stated: with a full budget of 100, a spend of
40 split by percentage with a single 50 percent entry fails validation
(no split results are shown), yet the remaining budget is still
decremented from 100 to 60, because the decrement statement runs on every
press of the split button. -/
theorem budget_decrement_cex :
    budget_split_ok 40 (SplitChoice.byPercentage [50]) = false ∧
    (spend_step demo_budget 40 (SplitChoice.byPercentage [50])).2.1 = false ∧
    (spend_step demo_budget 40 (SplitChoice.byPercentage [50])).1.budget_remaining = 60 := by
  refine ⟨?_, ?_, ?_⟩ <;>
    norm_num [budget_split_ok, spend_step, demo_budget, pyabs]

/-- C3 (amended): every press of the split button decrements the
remaining budget by the spend amount, whether or not the chosen split
validates, leaving the declared budget unchanged; and from a declared
budget of 100, even spends of 40 then 70 leave the remaining budget at
-10 with the session no longer looping and the overspend warning shown. -/
theorem budget_decrement_unconditional (s : BudgetState) (spend : ℚ) (c : SplitChoice) :
    ((spend_step s spend c).1.budget_remaining = s.budget_remaining - spend ∧
      (spend_step s spend c).1.budget_set = s.budget_set) ∧
    ((spend_step (spend_step demo_budget 40 SplitChoice.evenly).1 70
        SplitChoice.evenly).1.budget_remaining = -10 ∧
      (spend_step (spend_step demo_budget 40 SplitChoice.evenly).1 70
        SplitChoice.evenly).1.loop_active = false ∧
      (spend_step (spend_step demo_budget 40 SplitChoice.evenly).1 70
        SplitChoice.evenly).2.2 = SpendOutcome.overspent) := by
  refine ⟨⟨rfl, rfl⟩, ?_, ?_, ?_⟩ <;> norm_num [spend_step, demo_budget]

/-- C4: a raised exception during the rate fetch yields the hardcoded
six-currency fallback that includes USD, but a well-formed response whose
parsed body lacks a rates mapping makes the function fall off its end and
return None instead of the fallback. -/
theorem get_live_rates_missing_rates_bug :
    get_live_rates (FetchOutcome.ok none) = none ∧
    get_live_rates FetchOutcome.exn = some fallback_rates ∧
    fallback_rates.length = 6 ∧
    (fallback_rates.map Prod.fst).contains ("USD") = true := by
  refine ⟨rfl, rfl, rfl, by decide⟩

/-- Helper: searching an appended list when nothing in the first part
matches searches the second part. -/
theorem find?_append_of_first_none {α : Type} {p : α → Bool} {l₁ l₂ : List α}
    (h : ∀ a ∈ l₁, p a = false) :
    (l₁ ++ l₂).find? p = l₂.find? p := by
  rw [List.find?_append, List.find?_eq_none.mpr (fun x hx => by simp [h x hx])]
  rfl

/-- Helper: appending a well-hashed record preserves the all-hashed
property of a store. -/
theorem all_hashed_append {users : List User} {nu : User}
    (h0 : ∀ r ∈ users, is_bcrypt_hash r.password = true)
    (h2 : is_bcrypt_hash nu.password = true) :
    ∀ r ∈ users ++ [nu], is_bcrypt_hash r.password = true := by
  intro r hr
  rcases List.mem_append.mp hr with hm | hm
  · exact h0 r hm
  · rw [List.mem_singleton.mp hm]
    exact h2

/-- C5: after a successful create of username u on a store with no
case-insensitive match for u, verifying u (under any casing) with the
same password returns the canonically cased stored username, and
verifying with a password whose hash check fails returns the
authentication failure. -/
theorem create_then_verify (hashpw : String → String) (checkpw : String → String → Bool)
    (users : List User) (u p wrong : String)
    (h0 : ∀ r ∈ users, is_bcrypt_hash r.password = true)
    (h1 : user_exists users u = false)
    (h2 : is_bcrypt_hash (hashpw p) = true)
    (h3 : checkpw p (hashpw p) = true)
    (h4 : checkpw wrong (hashpw p) = false) :
    create_user hashpw users u p ("Basic") ("Monthly") =
      .ok (true, users ++ [new_user (hashpw p) u ("Basic") ("Monthly")]) ∧
    ∀ q, py_lower q = py_lower u →
      verify_user checkpw (users ++ [new_user (hashpw p) u ("Basic") ("Monthly")]) q p =
        some u ∧
      verify_user checkpw (users ++ [new_user (hashpw p) u ("Basic") ("Monthly")]) q wrong =
        none := by
  have hall : ∀ r ∈ users ++ [new_user (hashpw p) u ("Basic") ("Monthly")],
      is_bcrypt_hash r.password = true := all_hashed_append h0 h2
  constructor
  · unfold create_user
    rw [if_neg (by rw [h1]; exact Bool.false_ne_true), save_users_eq_ok _ hall]
    rfl
  · intro q hq
    constructor
    · unfold verify_user
      rw [find?_append_of_first_none (fun r hr => by
        rw [hq, user_exists_eq_false_forall h1 r hr]
        rfl)]
      rw [List.find?_cons_of_pos _ (by simp [new_user, hq, h3])]
      rfl
    · unfold verify_user
      rw [find?_append_of_first_none (fun r hr => by
        rw [hq, user_exists_eq_false_forall h1 r hr]
        rfl)]
      rw [List.find?_cons_of_neg _ (by simp [new_user, hq, h4])]
      rfl

/-- Witness for C5 on the empty store with the concrete bcrypt stand-in. -/
theorem create_then_verify_holds :
    create_user demo_hashpw [] ("Al") ("pw") ("Basic") ("Monthly") = .ok (true, [al_user]) ∧
    verify_user demo_checkpw [al_user] ("al") ("pw") = some ("Al") ∧
    verify_user demo_checkpw [al_user] ("al") ("no") = none := by
  have h := create_then_verify demo_hashpw demo_checkpw [] ("Al") ("pw") ("no")
    (by decide) (by decide) (by decide) (by decide) (by decide)
  exact ⟨h.1, (h.2 ("al") (by decide)).1, (h.2 ("al") (by decide)).2⟩

/-- C6: creating the same username twice (second call under any casing)
returns the duplicate failure on the second call, which changes no state,
and the store then holds exactly one case-insensitive match for it. -/
theorem create_user_duplicate_rejected (hashpw : String → String) (users : List User)
    (u u2 p1 p2 : String)
    (h0 : ∀ r ∈ users, is_bcrypt_hash r.password = true)
    (h1 : user_exists users u = false)
    (h2 : is_bcrypt_hash (hashpw p1) = true)
    (hq : py_lower u2 = py_lower u) :
    create_user hashpw users u p1 ("Basic") ("Monthly") =
      .ok (true, users ++ [new_user (hashpw p1) u ("Basic") ("Monthly")]) ∧
    create_user hashpw (users ++ [new_user (hashpw p1) u ("Basic") ("Monthly")]) u2 p2
        ("Basic") ("Monthly") =
      .ok (false, users ++ [new_user (hashpw p1) u ("Basic") ("Monthly")]) ∧
    (users ++ [new_user (hashpw p1) u ("Basic") ("Monthly")]).countP
        (fun r => py_lower r.username == py_lower u) = 1 := by
  have hall : ∀ r ∈ users ++ [new_user (hashpw p1) u ("Basic") ("Monthly")],
      is_bcrypt_hash r.password = true := all_hashed_append h0 h2
  refine ⟨?_, ?_, ?_⟩
  · unfold create_user
    rw [if_neg (by rw [h1]; exact Bool.false_ne_true), save_users_eq_ok _ hall]
    rfl
  · unfold create_user
    rw [if_pos (by simp [user_exists, new_user, hq])]
  · rw [List.countP_append,
      List.countP_eq_zero.mpr (fun r hr => by simp [user_exists_eq_false_forall h1 r hr])]
    simp [List.countP_cons, new_user]

/-- Witness for C6 on the empty store, second call in upper case. -/
theorem create_user_duplicate_rejected_holds :
    create_user demo_hashpw [] ("Bob") ("x") ("Basic") ("Monthly") =
      .ok (true, [new_user (demo_hashpw ("x")) ("Bob") ("Basic") ("Monthly")]) ∧
    create_user demo_hashpw [new_user (demo_hashpw ("x")) ("Bob") ("Basic") ("Monthly")]
        ("BOB") ("y") ("Basic") ("Monthly") =
      .ok (false, [new_user (demo_hashpw ("x")) ("Bob") ("Basic") ("Monthly")]) ∧
    ([new_user (demo_hashpw ("x")) ("Bob") ("Basic") ("Monthly")]).countP
        (fun r => py_lower r.username == py_lower ("Bob")) = 1 := by
  have h := create_user_duplicate_rejected demo_hashpw [] ("Bob") ("BOB") ("x") ("y")
    (by decide) (by decide) (by decide) (by decide)
  exact ⟨h.1, h.2.1, h.2.2⟩

/-- C7: the percentage split rejects, computing no amounts, exactly when
the percentages are more than 0.01 away from 100, and otherwise assigns
each member `total * (percentage / 100)`. -/
theorem split_by_percentage_correct (total : ℚ) (entries : List (String × ℚ)) :
    (pyabs (total_entered entries - 100) > 1/100 →
      split_by_percentage total entries = none) ∧
    (¬ pyabs (total_entered entries - 100) > 1/100 →
      split_by_percentage total entries =
        some (entries.map (fun e => (e.1, total * (e.2 / 100))))) := by
  constructor
  · intro h
    unfold split_by_percentage
    rw [if_pos h]
  · intro h
    unfold split_by_percentage
    rw [if_neg h]
    have hf : (fun e : String × ℚ => (e.1, e.2 / 100 * total)) =
        fun e : String × ℚ => (e.1, total * (e.2 / 100)) := by
      funext e
      rw [mul_comm]
    rw [hf]

/-- Witness for C7: 90.00 split 50/25/25 over Alice, Bob, Carol gives
45.00, 22.50, 22.50. -/
theorem split_by_percentage_correct_holds :
    split_by_percentage 90
        [(("Alice" : String), 50), (("Bob" : String), 25), (("Carol" : String), 25)] =
      some [(("Alice" : String), 45), (("Bob" : String), 45/2), (("Carol" : String), 45/2)] := by
  have h := (split_by_percentage_correct 90
      [(("Alice" : String), 50), (("Bob" : String), 25), (("Carol" : String), 25)]).2
    (by norm_num [total_entered, pyabs])
  rw [h]
  norm_num

/-- C8: the even split gives every member the same share, the total
divided by the member count. -/
theorem split_evenly_equal_shares (total : ℚ) (members : List String)
    (h0 : 0 ≤ total) (h1 : members ≠ []) :
    (split_evenly total members).length = members.length ∧
    ∀ e ∈ split_evenly total members, e.2 = total / members.length := by
  refine ⟨by simp [split_evenly], ?_⟩
  intro e he
  simp only [split_evenly, List.mem_map] at he
  obtain ⟨name, hn, he⟩ := he
  rw [← he]

/-- Witness for C8: 12 across three members is 4 each. -/
theorem split_evenly_equal_shares_holds :
    (split_evenly 12 [("A" : String), ("B" : String), ("C" : String)]).length = 3 ∧
    ∀ e ∈ split_evenly 12 [("A" : String), ("B" : String), ("C" : String)], e.2 = 4 := by
  have h := split_evenly_equal_shares 12 [("A" : String), ("B" : String), ("C" : String)]
    (by norm_num) (by simp)
  refine ⟨h.1, fun e he => ?_⟩
  rw [h.2 e he]
  norm_num

/-- C9: after a spend, the session is classified exactly by the sign of
the new remaining budget — positive keeps the loop active and continues,
zero completes, negative warns of overspend with the loop likewise
deactivated — and the reset zeroes both budget fields, deactivates the
session, and leaves no pending per-member input visible. -/
theorem budget_state_classification (s : BudgetState) (spend : ℚ) (c : SplitChoice)
    (fresh : Nat) :
    (0 < s.budget_remaining - spend →
      (spend_step s spend c).1.loop_active = true ∧
      (spend_step s spend c).2.2 = SpendOutcome.continuing) ∧
    (s.budget_remaining - spend = 0 →
      (spend_step s spend c).1.loop_active = false ∧
      (spend_step s spend c).2.2 = SpendOutcome.complete) ∧
    (s.budget_remaining - spend < 0 →
      (spend_step s spend c).1.loop_active = false ∧
      (spend_step s spend c).2.2 = SpendOutcome.overspent) ∧
    ((∀ e ∈ s.inputs, e.1 ≠ fresh) →
      (reset_budget s fresh).budget_remaining = 0 ∧
      (reset_budget s fresh).budget_set = 0 ∧
      (reset_budget s fresh).loop_active = false ∧
      pending_inputs (reset_budget s fresh) = []) := by
  refine ⟨?_, ?_, ?_, ?_⟩
  · intro h
    constructor <;> simp [spend_step, h]
  · intro h
    constructor <;> simp [spend_step, h]
  · intro h
    have h1 : ¬ 0 < s.budget_remaining - spend := not_lt.mpr (le_of_lt h)
    have h2 : ¬ s.budget_remaining - spend = 0 := ne_of_lt h
    constructor <;> simp [spend_step, h1, h2]
  · intro h
    refine ⟨rfl, rfl, rfl, ?_⟩
    show s.inputs.filter (fun e => e.1 == fresh) = []
    rw [List.filter_eq_nil_iff]
    intro e he
    simpa using h e he

/-- Witness for C9 at spends of 40, 100 and 110 against a budget of 100,
and a reset under a fresh run identifier. -/
theorem budget_state_classification_holds :
    ((spend_step demo_budget 40 SplitChoice.evenly).1.loop_active = true ∧
      (spend_step demo_budget 40 SplitChoice.evenly).2.2 = SpendOutcome.continuing) ∧
    ((spend_step demo_budget 100 SplitChoice.evenly).1.loop_active = false ∧
      (spend_step demo_budget 100 SplitChoice.evenly).2.2 = SpendOutcome.complete) ∧
    ((spend_step demo_budget 110 SplitChoice.evenly).1.loop_active = false ∧
      (spend_step demo_budget 110 SplitChoice.evenly).2.2 = SpendOutcome.overspent) ∧
    pending_inputs (reset_budget demo_inputs_state 1) = [] := by
  refine ⟨?_, ?_, ?_, ?_⟩
  · exact (budget_state_classification demo_budget 40 SplitChoice.evenly 1).1
      (by norm_num [demo_budget])
  · exact (budget_state_classification demo_budget 100 SplitChoice.evenly 1).2.1
      (by norm_num [demo_budget])
  · exact (budget_state_classification demo_budget 110 SplitChoice.evenly 1).2.2.1
      (by norm_num [demo_budget])
  · exact ((budget_state_classification demo_inputs_state 0 SplitChoice.evenly 1).2.2.2
      (by simp [demo_inputs_state])).2.2.2

end SplitLah
